import Mathlib

/-!
Shallow embedding of the Secure Model Acquisition Engine from
`src/src-tauri/src/managers/model.rs` (Hardened_Handy).

Paths are modelled as lists of string segments, tar entry paths as lists
of path components (mirroring Rust's `std::path::Component`), file
contents as lists of byte values (`Nat`), and external effects (HTTP
responses, the SHA-256 hasher, gzip/tar decoding outcomes) as explicit
oracle parameters.  Each Lean definition mirrors the control flow of the
corresponding Rust function.
-/

namespace HardenedHandy

/-- Mirror of Rust `std::path::Component` as produced by
`Path::components()` on a tar entry path. -/
inductive PathComponent where
  | rootDir
  | curDir
  | parentDir
  | prefixComp (s : String)
  | normal (s : String)
deriving DecidableEq, Repr

/-- A component is "ordinary" for the sanitizer when it is kept or
dropped rather than rejected: `CurDir` or `Normal`. -/
def PathComponent.isOrdinary : PathComponent → Bool
  | .curDir => true
  | .normal _ => true
  | _ => false

/-- The string carried by a `Normal` component, if any. -/
def PathComponent.normalSeg : PathComponent → Option String
  | .normal s => some s
  | _ => none

/-- Error values produced by the archive-handling functions, mirroring
the distinct `anyhow::bail!` messages of the source. -/
inductive ArchiveError where
  | unsupportedPathComponent (entry : List PathComponent)
  | unsupportedLink (entry : List PathComponent)
  | unsupportedType (desc : String) (entry : List PathComponent)
deriving DecidableEq, Repr

/-- Loop of `sanitize_archive_entry_path`: walk the components of
`entry`, dropping `CurDir`, pushing `Normal` segments onto the
accumulated path, and bailing on anything else.  `entry` is carried so
the error can report the offending entry path, as the Rust message does. -/
def sanitizeGo (entry : List PathComponent) (acc : List String) :
    List PathComponent → Except ArchiveError (List String)
  | [] => .ok acc
  | .curDir :: rest => sanitizeGo entry acc rest
  | .normal s :: rest => sanitizeGo entry (acc ++ [s]) rest
  | _ :: _ => .error (.unsupportedPathComponent entry)

/-- Mirror of `sanitize_archive_entry_path(base, entry)`: starts from
`base` and folds the entry's components. -/
def sanitizeArchiveEntryPath (base : List String) (entry : List PathComponent) :
    Except ArchiveError (List String) :=
  sanitizeGo entry base entry

lemma sanitizeGo_all_ordinary (entry : List PathComponent) :
    ∀ (l : List PathComponent) (acc : List String),
      (∀ c ∈ l, c.isOrdinary = true) →
      sanitizeGo entry acc l = .ok (acc ++ l.filterMap PathComponent.normalSeg) := by
  intro l
  induction l with
  | nil => intro acc _; simp [sanitizeGo]
  | cons c rest ih =>
    intro acc h
    have hc : c.isOrdinary = true := h c (by simp)
    have hrest : ∀ c ∈ rest, c.isOrdinary = true := fun x hx => h x (by simp [hx])
    cases c with
    | curDir =>
      simp [sanitizeGo, ih acc hrest, PathComponent.normalSeg]
    | normal s =>
      simp [sanitizeGo, ih (acc ++ [s]) hrest, PathComponent.normalSeg]
    | rootDir => simp [PathComponent.isOrdinary] at hc
    | parentDir => simp [PathComponent.isOrdinary] at hc
    | prefixComp s => simp [PathComponent.isOrdinary] at hc

lemma sanitizeGo_bad (entry : List PathComponent) :
    ∀ (l : List PathComponent) (acc : List String),
      (∃ c ∈ l, c.isOrdinary = false) →
      sanitizeGo entry acc l = .error (.unsupportedPathComponent entry) := by
  intro l
  induction l with
  | nil => intro acc h; simp at h
  | cons c rest ih =>
    intro acc h
    by_cases hc : c.isOrdinary = true
    · have hrest : ∃ x ∈ rest, x.isOrdinary = false := by
        rcases h with ⟨x, hx, hxo⟩
        rcases List.mem_cons.mp hx with rfl | hx'
        · exact absurd hc (by simp [hxo])
        · exact ⟨x, hx', hxo⟩
      cases c with
      | curDir => simpa [sanitizeGo] using ih acc hrest
      | normal s => simpa [sanitizeGo] using ih (acc ++ [s]) hrest
      | rootDir => simp [PathComponent.isOrdinary] at hc
      | parentDir => simp [PathComponent.isOrdinary] at hc
      | prefixComp s => simp [PathComponent.isOrdinary] at hc
    · cases c with
      | curDir => simp [PathComponent.isOrdinary] at hc
      | normal s => simp [PathComponent.isOrdinary] at hc
      | rootDir => simp [sanitizeGo]
      | parentDir => simp [sanitizeGo]
      | prefixComp s => simp [sanitizeGo]

/-- **C1.** `sanitize_archive_entry_path` rejects any entry containing a
non-ordinary component (parent-directory, root anchor, prefix) with an
"unsupported path component" error, and on an entry made solely of
ordinary named segments and current-directory segments it returns `base`
joined with the ordinary segments in their original order, the
current-directory segments dropped. -/
theorem sanitize_entry_path_spec (base : List String) (entry : List PathComponent) :
    ((∀ c ∈ entry, c.isOrdinary = true) →
      sanitizeArchiveEntryPath base entry =
        .ok (base ++ entry.filterMap PathComponent.normalSeg)) ∧
    ((∃ c ∈ entry, c.isOrdinary = false) →
      sanitizeArchiveEntryPath base entry =
        .error (.unsupportedPathComponent entry)) := by
  constructor
  · intro h; exact sanitizeGo_all_ordinary entry entry base h
  · intro h; exact sanitizeGo_bad entry entry base h

/-- Witness for C1 at concrete inputs: `./x/y` under base `b` yields
`b/x/y`, while `../evil` is rejected. -/
theorem sanitize_entry_path_spec_witness :
    sanitizeArchiveEntryPath ["b"] [.curDir, .normal "x", .normal "y"] =
      .ok ["b", "x", "y"] ∧
    sanitizeArchiveEntryPath ["b"] [.parentDir, .normal "evil"] =
      .error (.unsupportedPathComponent [.parentDir, .normal "evil"]) := by
  refine ⟨?_, ?_⟩
  · have h := (sanitize_entry_path_spec ["b"] [.curDir, .normal "x", .normal "y"]).1
      (by decide)
    simpa using h
  · exact (sanitize_entry_path_spec ["b"] [.parentDir, .normal "evil"]).2
      ⟨.parentDir, by simp, by decide⟩

/-- Mirror of `tar::EntryType` restricted to the cases the extractor
distinguishes; every other header type is `other`. -/
inductive TarEntryType where
  | directory
  | regular
  | symlink
  | link
  | other (desc : String)
deriving DecidableEq, Repr

/-- A tar archive entry: its path, header entry type, and file contents. -/
structure TarEntry where
  path : List PathComponent
  etype : TarEntryType
  content : List Nat
deriving DecidableEq, Repr

/-- Filesystem side effects performed by the extractor, in order. -/
inductive FsAction where
  | createDirAll (p : List String)
  | writeFile (p : List String) (content : List Nat)
deriving DecidableEq, Repr

/-- Mirror of `extract_archive_securely`: processes entries in order,
sanitizing each entry path against `dest` first, then dispatching on the
entry type.  Returns the filesystem actions performed before
termination together with the overall result; an error stops processing
with no action recorded for the failing entry. -/
def extractArchiveSecurely (dest : List String) :
    List TarEntry → List FsAction × Except ArchiveError Unit
  | [] => ([], .ok ())
  | e :: rest =>
    match sanitizeArchiveEntryPath dest e.path with
    | .error err => ([], .error err)
    | .ok fullPath =>
      match e.etype with
      | .directory =>
        let tail := extractArchiveSecurely dest rest
        (.createDirAll fullPath :: tail.1, tail.2)
      | .regular =>
        let tail := extractArchiveSecurely dest rest
        ((if fullPath.isEmpty then [] else [.createDirAll fullPath.dropLast]) ++
          .writeFile fullPath e.content :: tail.1, tail.2)
      | .symlink => ([], .error (.unsupportedLink e.path))
      | .link => ([], .error (.unsupportedLink e.path))
      | .other d => ([], .error (.unsupportedType d e.path))

lemma extract_append_of_ok (dest : List String) :
    ∀ (pre l : List TarEntry),
      (extractArchiveSecurely dest pre).2 = .ok () →
      extractArchiveSecurely dest (pre ++ l) =
        ((extractArchiveSecurely dest pre).1 ++ (extractArchiveSecurely dest l).1,
          (extractArchiveSecurely dest l).2) := by
  intro pre
  induction pre with
  | nil => intro l _; simp [extractArchiveSecurely]
  | cons e rest ih =>
    intro l hok
    cases hs : sanitizeArchiveEntryPath dest e.path with
    | error err =>
      exfalso; simp [extractArchiveSecurely, hs] at hok
    | ok fullPath =>
      cases he : e.etype with
      | directory =>
        have hrest : (extractArchiveSecurely dest rest).2 = .ok () := by
          simpa [extractArchiveSecurely, hs, he] using hok
        simp [extractArchiveSecurely, hs, he, ih l hrest]
      | regular =>
        have hrest : (extractArchiveSecurely dest rest).2 = .ok () := by
          simpa [extractArchiveSecurely, hs, he] using hok
        simp [extractArchiveSecurely, hs, he, ih l hrest]
      | symlink => exfalso; simp [extractArchiveSecurely, hs, he] at hok
      | link => exfalso; simp [extractArchiveSecurely, hs, he] at hok
      | other d => exfalso; simp [extractArchiveSecurely, hs, he] at hok

/-- **C2 (amended).** When extraction reaches a symbolic-link or
hard-link entry (all earlier entries processed successfully), it fails:
the recorded filesystem actions are exactly those of the earlier
entries, so no link is created and no bytes of the link entry are
written; when the link entry's path itself sanitizes cleanly the error
is the "unsupported link" error, while an unsafe path in the link entry
is reported as an unsupported-path-component error instead.  Entry
types other than directory, regular file, symlink and hard link are
likewise rejected with an "unsupported type" error. -/
theorem extract_rejects_links (dest : List String) (pre rest : List TarEntry)
    (e : TarEntry) (hpre : (extractArchiveSecurely dest pre).2 = .ok ()) :
    ((e.etype = .symlink ∨ e.etype = .link) →
      (extractArchiveSecurely dest (pre ++ e :: rest)).1 =
        (extractArchiveSecurely dest pre).1 ∧
      (∃ err, (extractArchiveSecurely dest (pre ++ e :: rest)).2 = .error err) ∧
      (∀ p, sanitizeArchiveEntryPath dest e.path = .ok p →
        (extractArchiveSecurely dest (pre ++ e :: rest)).2 =
          .error (.unsupportedLink e.path))) ∧
    (∀ d, e.etype = .other d →
      (extractArchiveSecurely dest (pre ++ e :: rest)).1 =
        (extractArchiveSecurely dest pre).1 ∧
      (∃ err, (extractArchiveSecurely dest (pre ++ e :: rest)).2 = .error err) ∧
      (∀ p, sanitizeArchiveEntryPath dest e.path = .ok p →
        (extractArchiveSecurely dest (pre ++ e :: rest)).2 =
          .error (.unsupportedType d e.path))) := by
  have hsplit := extract_append_of_ok dest pre (e :: rest) hpre
  constructor
  · intro hlink
    cases hs : sanitizeArchiveEntryPath dest e.path with
    | error err =>
      rcases hlink with h | h <;>
        refine ⟨by simp [hsplit, extractArchiveSecurely, hs],
          ⟨err, by simp [hsplit, extractArchiveSecurely, hs]⟩,
          fun p hp => by simp [hs] at hp⟩
    | ok fullPath =>
      rcases hlink with h | h <;>
        exact ⟨by simp [hsplit, extractArchiveSecurely, hs, h],
          ⟨.unsupportedLink e.path, by simp [hsplit, extractArchiveSecurely, hs, h]⟩,
          fun p hp => by simp [hsplit, extractArchiveSecurely, hs, h]⟩
  · intro d hd
    cases hs : sanitizeArchiveEntryPath dest e.path with
    | error err =>
      refine ⟨by simp [hsplit, extractArchiveSecurely, hs],
        ⟨err, by simp [hsplit, extractArchiveSecurely, hs]⟩,
        fun p hp => by simp [hs] at hp⟩
    | ok fullPath =>
      exact ⟨by simp [hsplit, extractArchiveSecurely, hs, hd],
        ⟨.unsupportedType d e.path, by simp [hsplit, extractArchiveSecurely, hs, hd]⟩,
        fun p hp => by simp [hsplit, extractArchiveSecurely, hs, hd]⟩

/-- Witness for C2 (amended) at a concrete archive: a regular entry
`dir/file` followed by a clean-pathed symlink entry — extraction keeps
only the regular entry's actions and fails with "unsupported link". -/
theorem extract_rejects_links_witness :
    (extractArchiveSecurely ["dest"]
        [⟨[.normal "dir", .normal "f"], .regular, [1, 2]⟩,
         ⟨[.normal "lnk"], .symlink, []⟩]).1 =
      [.createDirAll ["dest", "dir"], .writeFile ["dest", "dir", "f"] [1, 2]] ∧
    (extractArchiveSecurely ["dest"]
        [⟨[.normal "dir", .normal "f"], .regular, [1, 2]⟩,
         ⟨[.normal "lnk"], .symlink, []⟩]).2 =
      .error (.unsupportedLink [.normal "lnk"]) := by
  have h := (extract_rejects_links ["dest"]
      [⟨[.normal "dir", .normal "f"], .regular, [1, 2]⟩] []
      ⟨[.normal "lnk"], .symlink, []⟩ (by rfl)).1 (Or.inl rfl)
  exact ⟨by rfl, h.2.2 ["dest", "lnk"] (by rfl)⟩

/-- **C2 (counterexample).** The claim as stated requires an
"unsupported link" error whenever extraction reaches a link entry, but
a symlink entry whose own path contains a parent-directory component is
rejected by path sanitization first: the archive consisting of the
single symlink entry `../evil` yields the unsupported-path-component
error, not the unsupported-link error. -/
theorem extract_link_claim_counterexample :
    (extractArchiveSecurely ["dest"]
        [⟨[.parentDir, .normal "evil"], .symlink, []⟩]).2 =
      .error (.unsupportedPathComponent [.parentDir, .normal "evil"]) ∧
    ∀ p, (extractArchiveSecurely ["dest"]
        [⟨[.parentDir, .normal "evil"], .symlink, []⟩]).2 ≠
      .error (.unsupportedLink p) := by
  refine ⟨by rfl, fun p => ?_⟩
  intro h
  have : ArchiveError.unsupportedPathComponent [.parentDir, .normal "evil"] =
      ArchiveError.unsupportedLink p := by
    have hd : (extractArchiveSecurely ["dest"]
        [⟨[.parentDir, .normal "evil"], .symlink, []⟩]).2 =
      .error (.unsupportedPathComponent [.parentDir, .normal "evil"]) := by rfl
    exact Except.error.inj (hd ▸ h)
  simp at this

/-- Mirror of Rust `char::is_ascii_hexdigit`. -/
def isAsciiHexdigit (c : Char) : Bool :=
  c.isDigit || ('a' ≤ c && c ≤ 'f') || ('A' ≤ c && c ≤ 'F')

/-- Mirror of `ModelDigest`. -/
structure ModelDigest where
  modelId : String
  sha256 : String
  sizeBytes : Nat
deriving DecidableEq, Repr

/-- The `"deadbeef".repeat(8)` filler pattern. -/
def deadbeefFiller : String := String.join (List.replicate 8 "deadbeef")

/-- The `"cafebabe".repeat(8)` filler pattern. -/
def cafebabeFiller : String := String.join (List.replicate 8 "cafebabe")

/-- Per-entry validation performed inside `ModelManifest::load`: zero
size, malformed digest, and placeholder-digest rejection, in the
source's order, each with its distinct error message. -/
def validateManifestEntry (id : String) (digest : String) (size : Nat) :
    Except String Unit :=
  if size == 0 then
    .error ("manifest entry for model " ++ id ++ " contains zero size")
  else if digest.length != 64 || !(digest.data.all isAsciiHexdigit) then
    .error ("manifest entry for model " ++ id ++ " has invalid sha256 digest")
  else if digest.data.all (fun c => c == '0') || digest.data.all (fun c => c == '1')
      || digest.data.all (fun c => c == '2') || digest.data.all (fun c => c == '3')
      || digest.data.all (fun c => c == '4')
      || digest == deadbeefFiller || digest == cafebabeFiller then
    .error ("manifest entry for model " ++ id ++
      " contains placeholder sha256 digest (security risk)")
  else
    .ok ()

/-- Mirror of the `collect::<Result<HashMap<_, _>>>` over manifest
entries: validates each entry in order; the first failure fails the
whole load; on success each digest is lowercased and keyed by id. -/
def loadManifestEntries :
    List (String × String × Nat) → Except String (List (String × ModelDigest))
  | [] => .ok []
  | (id, dg, sz) :: rest =>
    match validateManifestEntry id dg sz with
    | .error e => .error e
    | .ok () =>
      match loadManifestEntries rest with
      | .error e => .error e
      | .ok tl => .ok ((id, ⟨id, dg.toLower, sz⟩) :: tl)

/-- **C3 (counterexample).** The claim says digest validation rejects
*any* 64-character string composed of a single repeated character, but
the code only checks the digits '0'–'4': the digest consisting of
sixty-four '5' characters is a single repeated character, is 64 hex
characters long, and is accepted with a nonzero size. -/
theorem manifest_repeated_char_counterexample :
    (String.mk (List.replicate 64 '5')).length = 64 ∧
    ((String.mk (List.replicate 64 '5')).data.all (fun c => c == '5')) = true ∧
    validateManifestEntry "m" (String.mk (List.replicate 64 '5')) 1024 = .ok () := by
  refine ⟨by decide, by decide, ?_⟩
  rfl

/-- **C3 (amended).** For 64-character digest strings, manifest-entry
validation rejects any string containing a non-hexadecimal character;
rejects a string of a single repeated character when that character is
one of the digits '0'–'4'; rejects the `deadbeef`/`cafebabe` filler
patterns; and accepts any other 64-hex-character value paired with a
nonzero size.  Any entry rejection fails the whole manifest load. -/
theorem manifest_validation_spec (id digest : String) (size : Nat)
    (hlen : digest.length = 64) :
    ((¬ ∀ c ∈ digest.data, isAsciiHexdigit c = true) →
      ∃ msg, validateManifestEntry id digest size = .error msg) ∧
    (∀ r ∈ ['0', '1', '2', '3', '4'],
      (∀ c ∈ digest.data, c = r) →
      ∃ msg, validateManifestEntry id digest size = .error msg) ∧
    ((digest = deadbeefFiller ∨ digest = cafebabeFiller) →
      ∃ msg, validateManifestEntry id digest size = .error msg) ∧
    (size ≠ 0 →
      (∀ c ∈ digest.data, isAsciiHexdigit c = true) →
      (∀ r ∈ ['0', '1', '2', '3', '4'], ¬ ∀ c ∈ digest.data, c = r) →
      digest ≠ deadbeefFiller → digest ≠ cafebabeFiller →
      validateManifestEntry id digest size = .ok ()) ∧
    (∀ pre post, (∃ msg, validateManifestEntry id digest size = .error msg) →
      ∃ msg, loadManifestEntries (pre ++ (id, digest, size) :: post) = .error msg) := by
  have hrep : ∀ r : Char, (digest.data.all (fun c => c == r) = true) ↔
      ∀ c ∈ digest.data, c = r := by
    intro r
    simp [List.all_eq_true]
  have hzmsg : size = 0 →
      validateManifestEntry id digest size =
        .error ("manifest entry for model " ++ id ++ " contains zero size") := by
    intro hz
    simp [validateManifestEntry, hz]
  have hinvmsg : size ≠ 0 → digest.data.all isAsciiHexdigit = false →
      validateManifestEntry id digest size =
        .error ("manifest entry for model " ++ id ++ " has invalid sha256 digest") := by
    intro hz hall
    simp [validateManifestEntry, hz, hall]
  have hplacmsg : size ≠ 0 → digest.data.all isAsciiHexdigit = true →
      (digest.data.all (fun c => c == '0') || digest.data.all (fun c => c == '1')
        || digest.data.all (fun c => c == '2') || digest.data.all (fun c => c == '3')
        || digest.data.all (fun c => c == '4')
        || digest == deadbeefFiller || digest == cafebabeFiller) = true →
      validateManifestEntry id digest size =
        .error ("manifest entry for model " ++ id ++
          " contains placeholder sha256 digest (security risk)") := by
    intro hz hall hcond
    simp [validateManifestEntry, hz, hall, hlen, hcond]
  refine ⟨?_, ?_, ?_, ?_, ?_⟩
  · intro hbad
    have hall : digest.data.all isAsciiHexdigit = false := by
      cases h : digest.data.all isAsciiHexdigit
      · rfl
      · exact absurd (by simpa [List.all_eq_true] using h) hbad
    by_cases hz : size = 0
    · exact ⟨_, hzmsg hz⟩
    · exact ⟨_, hinvmsg hz hall⟩
  · intro r hr hall
    by_cases hz : size = 0
    · exact ⟨_, hzmsg hz⟩
    cases hhex : digest.data.all isAsciiHexdigit
    · exact ⟨_, hinvmsg hz hhex⟩
    · have hb : digest.data.all (fun c => c == r) = true := (hrep r).mpr hall
      fin_cases hr <;> exact ⟨_, hplacmsg hz hhex (by simp [hb])⟩
  · intro hfill
    by_cases hz : size = 0
    · exact ⟨_, hzmsg hz⟩
    cases hhex : digest.data.all isAsciiHexdigit
    · exact ⟨_, hinvmsg hz hhex⟩
    · rcases hfill with rfl | rfl
      · exact ⟨_, hplacmsg hz hhex (by simp)⟩
      · exact ⟨_, hplacmsg hz hhex (by simp)⟩
  · intro hz hhex hnorep hdead hcafe
    have hhex' : digest.data.all isAsciiHexdigit = true := by
      simpa [List.all_eq_true] using hhex
    have h0 : digest.data.all (fun c => c == '0') = false :=
      Bool.eq_false_iff.mpr (fun h => hnorep '0' (by simp) ((hrep '0').mp h))
    have h1 : digest.data.all (fun c => c == '1') = false :=
      Bool.eq_false_iff.mpr (fun h => hnorep '1' (by simp) ((hrep '1').mp h))
    have h2 : digest.data.all (fun c => c == '2') = false :=
      Bool.eq_false_iff.mpr (fun h => hnorep '2' (by simp) ((hrep '2').mp h))
    have h3 : digest.data.all (fun c => c == '3') = false :=
      Bool.eq_false_iff.mpr (fun h => hnorep '3' (by simp) ((hrep '3').mp h))
    have h4 : digest.data.all (fun c => c == '4') = false :=
      Bool.eq_false_iff.mpr (fun h => hnorep '4' (by simp) ((hrep '4').mp h))
    simp [validateManifestEntry, hz, hhex', hlen, h0, h1, h2, h3, h4, hdead, hcafe]
  · intro pre post herr
    rcases herr with ⟨msg, hmsg⟩
    induction pre with
    | nil => exact ⟨msg, by simp [loadManifestEntries, hmsg]⟩
    | cons p pre ih =>
      rcases p with ⟨pid, pdg, psz⟩
      rcases ih with ⟨m, hm⟩
      cases hv : validateManifestEntry pid pdg psz with
      | error e => exact ⟨e, by simp [loadManifestEntries, hv]⟩
      | ok u =>
        cases u
        exact ⟨m, by simp [loadManifestEntries, hv, hm]⟩

/-- Witness for C3 (amended) at concrete inputs: an all-'0' digest is
rejected, and a mixed well-formed digest with nonzero size is
accepted. -/
theorem manifest_validation_spec_witness :
    (∃ msg, validateManifestEntry "m" (String.mk (List.replicate 64 '0')) 7 =
      .error msg) ∧
    validateManifestEntry "m"
      (String.mk ('a' :: 'b' :: List.replicate 62 '0')) 7 = .ok () := by
  constructor
  · exact (manifest_validation_spec "m" (String.mk (List.replicate 64 '0')) 7
      (by decide)).2.1 '0' (by decide) (by decide)
  · exact (manifest_validation_spec "m"
      (String.mk ('a' :: 'b' :: List.replicate 62 '0')) 7 (by decide)).2.2.2.1
      (by decide) (by decide) (by decide) (by decide) (by decide)

/-- Error values of `verify_download`, mirroring its two distinct
`anyhow::bail!` messages with the data each carries. -/
inductive VerifyError where
  | sizeMismatch (modelId : String) (expected actual : Nat)
  | hashMismatch (modelId : String) (expected actual : String)
deriving DecidableEq, Repr

/-- Mirror of `verify_download(path, digest)` over the file's content.
The size check runs first on the file metadata; only when it passes is
the content streamed through the hasher, modelled by the `hash` oracle
standing for the external SHA-256 implementation. -/
def verifyDownload (hash : List Nat → String) (content : List Nat)
    (digest : ModelDigest) : Except VerifyError Unit :=
  if content.length != digest.sizeBytes then
    .error (.sizeMismatch digest.modelId digest.sizeBytes content.length)
  else
    let actual := hash content
    if actual != digest.sha256 then
      .error (.hashMismatch digest.modelId digest.sha256 actual)
    else
      .ok ()

/-- **C4.** `verify_download` succeeds iff the content length equals the
manifest size and its hash equals the manifest digest; a length mismatch
yields the size-mismatch error carrying expected and actual sizes, and
the result is then independent of the hash function — no content is
hashed; a correct length with a differing hash yields the hash-mismatch
error; the two error kinds are distinct, so the caller can tell them
apart. -/
theorem verify_download_spec (hash : List Nat → String) (content : List Nat)
    (digest : ModelDigest) :
    (verifyDownload hash content digest = .ok () ↔
      content.length = digest.sizeBytes ∧ hash content = digest.sha256) ∧
    (content.length ≠ digest.sizeBytes →
      verifyDownload hash content digest =
        .error (.sizeMismatch digest.modelId digest.sizeBytes content.length) ∧
      ∀ hash2, verifyDownload hash2 content digest =
        verifyDownload hash content digest) ∧
    (content.length = digest.sizeBytes → hash content ≠ digest.sha256 →
      verifyDownload hash content digest =
        .error (.hashMismatch digest.modelId digest.sha256 (hash content))) ∧
    (∀ m1 e1 a1 m2 e2 a2,
      VerifyError.sizeMismatch m1 e1 a1 ≠ VerifyError.hashMismatch m2 e2 a2) := by
  refine ⟨?_, ?_, ?_, ?_⟩
  · constructor
    · intro h
      by_cases hs : content.length = digest.sizeBytes
      · by_cases hh : hash content = digest.sha256
        · exact ⟨hs, hh⟩
        · simp [verifyDownload, hs, hh] at h
      · simp [verifyDownload, hs] at h
    · rintro ⟨hs, hh⟩
      simp [verifyDownload, hs, hh]
  · intro hs
    exact ⟨by simp [verifyDownload, hs], fun hash2 => by simp [verifyDownload, hs]⟩
  · intro hs hh
    simp [verifyDownload, hs, hh]
  · intro m1 e1 a1 m2 e2 a2
    simp

/-- Witness for C4 at concrete inputs: with a hasher mapping `[1, 2]` to
`"ab"`, the digest `("m", "ab", 2)` accepts `[1, 2]`, a 3-byte content
fails with a size mismatch, and content `[9, 9]` fails with a hash
mismatch. -/
theorem verify_download_spec_witness :
    verifyDownload (fun c => if c = [1, 2] then "ab" else "zz") [1, 2]
      ⟨"m", "ab", 2⟩ = .ok () ∧
    verifyDownload (fun c => if c = [1, 2] then "ab" else "zz") [1, 2, 3]
      ⟨"m", "ab", 2⟩ = .error (.sizeMismatch "m" 2 3) ∧
    verifyDownload (fun c => if c = [1, 2] then "ab" else "zz") [9, 9]
      ⟨"m", "ab", 2⟩ = .error (.hashMismatch "m" "ab" "zz") := by
  refine ⟨?_, ?_, ?_⟩
  · exact (verify_download_spec (fun c => if c = [1, 2] then "ab" else "zz")
      [1, 2] ⟨"m", "ab", 2⟩).1.mpr ⟨by decide, by decide⟩
  · exact ((verify_download_spec (fun c => if c = [1, 2] then "ab" else "zz")
      [1, 2, 3] ⟨"m", "ab", 2⟩).2.1 (by decide)).1
  · have h := (verify_download_spec (fun c => if c = [1, 2] then "ab" else "zz")
      [9, 9] ⟨"m", "ab", 2⟩).2.2.1 (by decide) (by decide)
    simpa using h

/-- In-memory per-model status held in the manager's `available_models`
map (the fields of `ModelInfo` the engine mutates, plus the static
`is_directory` flag and download URL it consults). -/
structure ModelInfoState where
  isDownloaded : Bool
  isDownloading : Bool
  partialSize : Nat
  isDirectory : Bool
  url : Option String
deriving DecidableEq, Repr

/-- On-disk state for one model id: the final artifact
(`models_dir/<filename>`), the partial file (`<filename>.partial`,
its content standing for the bytes on disk), and the staging directory
(`<filename>.extracting`). -/
structure DiskState where
  finalExists : Bool
  finalIsDir : Bool
  finalContent : List Nat
  partialExists : Bool
  partialContent : List Nat
  extractingExists : Bool
deriving DecidableEq, Repr

/-- Mirror of `ModelManager::update_download_status` for one model:
recomputes `is_downloaded`, `is_downloading` and `partial_size` from the
filesystem; for directory-based models it additionally requires the
final path to be a directory and removes any leftover `.extracting`
staging directory. -/
def updateDownloadStatus (disk : DiskState) (info : ModelInfoState) :
    DiskState × ModelInfoState :=
  if info.isDirectory then
    ({ disk with extractingExists := false },
      { info with
        isDownloaded := disk.finalExists && disk.finalIsDir
        isDownloading := disk.partialExists
        partialSize := if disk.partialExists then disk.partialContent.length else 0 })
  else
    (disk,
      { info with
        isDownloaded := disk.finalExists
        isDownloading := disk.partialExists
        partialSize := if disk.partialExists then disk.partialContent.length else 0 })

/-- Error values of `ModelManager::download_model`, one per distinct
failure return of the source. -/
inductive DownloadError where
  | noManifestEntry
  | noUrl
  | partialExceedsExpected (size expected : Nat)
  | httpStatusFailure
  | chunkError
  | verifyFailed (e : VerifyError)
  | extractFailed (e : ArchiveError)
deriving DecidableEq, Repr

/-- The HTTP response oracle for one request: whether the status was
success or `206 Partial Content`, the reported content length, and the
byte stream as a list of chunks where `none` is a mid-stream chunk
error. -/
structure HttpResponse where
  statusAcceptable : Bool
  contentLength : Option Nat
  chunks : List (Option (List Nat))
deriving DecidableEq, Repr

/-- The `while let Some(chunk) = stream.next()` loop: appends each good
chunk to the file content; a `none` chunk aborts with the bytes written
so far and signals failure. -/
def streamChunks (content : List Nat) :
    List (Option (List Nat)) → List Nat × Bool
  | [] => (content, true)
  | none :: _ => (content, false)
  | some c :: rest => streamChunks (content ++ c) rest

/-- The observable outcome of one `download_model` call: the updated
in-memory status, the updated disk state, the HTTP requests issued
(`some n` = a `Range: bytes=n-` request, `none` = an unranged request),
and the returned result. -/
structure DownloadOutcome where
  info : ModelInfoState
  disk : DiskState
  requests : List (Option Nat)
  result : Except DownloadError Unit
deriving Repr

/-- Mirror of `ModelManager::download_model` for one model id.  `hash`
stands for the SHA-256 implementation, `resp` for the HTTP layer, and
`extractOutcome` for the result of `extract_archive_securely` on the
gzip-decoded archive of a directory-based model.  Every status update,
disk mutation and early return follows the source's order:
final-artifact short-circuit, oversized-partial check, resume-offset
computation, ranged request, status check, chunked streaming,
verification, then extraction/rename and the final status update. -/
def downloadModel (hash : List Nat → String) (digest? : Option ModelDigest)
    (info : ModelInfoState) (disk : DiskState) (resp : HttpResponse)
    (extractOutcome : Except ArchiveError Unit) : DownloadOutcome :=
  match digest? with
  | none => ⟨info, disk, [], .error .noManifestEntry⟩
  | some digest =>
    match info.url with
    | none => ⟨info, disk, [], .error .noUrl⟩
    | some _ =>
      if disk.finalExists then
        let disk1 := { disk with partialExists := false, partialContent := [] }
        let refreshed := updateDownloadStatus disk1 info
        ⟨refreshed.2, refreshed.1, [], .ok ()⟩
      else
        let resumeCheck : Except DownloadError Nat :=
          if disk.partialExists then
            if disk.partialContent.length > digest.sizeBytes then
              .error (.partialExceedsExpected disk.partialContent.length digest.sizeBytes)
            else
              .ok disk.partialContent.length
          else
            .ok 0
        match resumeCheck with
        | .error e => ⟨info, disk, [], .error e⟩
        | .ok resumeFrom =>
          let info1 := { info with isDownloading := true }
          let request := if resumeFrom > 0 then some resumeFrom else none
          if !resp.statusAcceptable then
            ⟨{ info1 with isDownloading := false }, disk, [request],
              .error .httpStatusFailure⟩
          else
            let disk1 :=
              if resumeFrom > 0 then { disk with partialExists := true }
              else { disk with partialExists := true, partialContent := [] }
            let streamed := streamChunks disk1.partialContent resp.chunks
            let disk2 := { disk1 with partialContent := streamed.1 }
            if !streamed.2 then
              ⟨{ info1 with isDownloading := false }, disk2, [request],
                .error .chunkError⟩
            else
              match verifyDownload hash disk2.partialContent digest with
              | .error e =>
                ⟨{ info1 with
                    isDownloading := false
                    partialSize := disk2.partialContent.length },
                  disk2, [request], .error (.verifyFailed e)⟩
              | .ok () =>
                if info.isDirectory then
                  match extractOutcome with
                  | .error e =>
                    let disk3 := { disk2 with extractingExists := false }
                    ⟨{ info1 with
                        isDownloading := false
                        partialSize := disk3.partialContent.length },
                      disk3, [request], .error (.extractFailed e)⟩
                  | .ok () =>
                    let disk3 := { disk2 with
                      finalExists := true
                      finalIsDir := true
                      finalContent := disk2.partialContent
                      partialExists := false
                      partialContent := []
                      extractingExists := false }
                    ⟨{ info1 with
                        isDownloading := false
                        isDownloaded := true
                        partialSize := 0 },
                      disk3, [request], .ok ()⟩
                else
                  let disk3 := { disk2 with
                    finalExists := true
                    finalIsDir := false
                    finalContent := disk2.partialContent
                    partialExists := false
                    partialContent := [] }
                  ⟨{ info1 with
                      isDownloading := false
                      isDownloaded := true
                      partialSize := 0 },
                    disk3, [request], .ok ()⟩

/-- Mirror of `ModelManager::cancel_download` for a known model id:
sets the in-memory downloading flag false, then runs
`update_download_status`, and returns `Ok`.  The partial file is not
touched. -/
def cancelDownload (info : ModelInfoState) (disk : DiskState) :
    ModelInfoState × DiskState × Except DownloadError Unit :=
  let info1 := { info with isDownloading := false }
  let refreshed := updateDownloadStatus disk info1
  (refreshed.2, refreshed.1, .ok ())

/-- Error values of `ModelManager::get_model_path`, one per distinct
failure return of the source. -/
inductive PathError where
  | notFound
  | notAvailable
  | currentlyDownloading
  | incomplete
deriving DecidableEq, Repr

/-- Mirror of `ModelManager::get_model_path`: checks the in-memory
status flags first, then probes the filesystem; `none` for `info?`
models an unknown model id. -/
def getModelPath (modelsDir : List String) (filename : String)
    (info? : Option ModelInfoState) (disk : DiskState) :
    Except PathError (List String) :=
  match info? with
  | none => .error .notFound
  | some info =>
    if !info.isDownloaded then
      .error .notAvailable
    else if info.isDownloading then
      .error .currentlyDownloading
    else if info.isDirectory then
      if disk.finalExists && disk.finalIsDir && !disk.partialExists then
        .ok (modelsDir ++ [filename])
      else
        .error .incomplete
    else
      if disk.finalExists && !disk.partialExists then
        .ok (modelsDir ++ [filename])
      else
        .error .incomplete

/-- **C5 (counterexample).** The claim requires an error whenever the
partial file is strictly larger than the manifest size, but the
final-artifact short-circuit runs first: with the final artifact present
and a 5-byte partial against a declared size of 4, `download_model`
returns success (discarding the partial), not an error. -/
theorem download_oversized_partial_counterexample :
    (downloadModel (fun _ => "h") (some ⟨"m", "aa", 4⟩)
        ⟨false, false, 0, false, some "u"⟩
        ⟨true, false, [7], true, [1, 2, 3, 4, 5], false⟩
        ⟨true, none, []⟩ (.ok ())).result = .ok () ∧
    ([1, 2, 3, 4, 5] : List Nat).length > 4 := by
  exact ⟨rfl, by decide⟩

/-- **C5 (amended).** For a model with a download URL and a manifest
entry, whose final artifact does not already exist and whose partial
file is strictly larger than the manifest-declared size,
`download_model` fails fast with the partial-exceeds-expected error:
no HTTP request is issued, and neither the disk state nor the in-memory
status is changed. -/
theorem download_oversized_partial_spec (hash : List Nat → String)
    (digest : ModelDigest) (info : ModelInfoState) (disk : DiskState)
    (resp : HttpResponse) (ext : Except ArchiveError Unit) (u : String)
    (hurl : info.url = some u) (hfinal : disk.finalExists = false)
    (hpart : disk.partialExists = true)
    (hover : disk.partialContent.length > digest.sizeBytes) :
    downloadModel hash (some digest) info disk resp ext =
      ⟨info, disk, [],
        .error (.partialExceedsExpected disk.partialContent.length
          digest.sizeBytes)⟩ := by
  simp [downloadModel, hurl, hfinal, hpart, hover]

/-- Witness for C5 (amended): a 5-byte partial against declared size 4
with no final artifact fails fast with no request issued. -/
theorem download_oversized_partial_spec_witness :
    downloadModel (fun _ => "h") (some ⟨"m", "aa", 4⟩)
        ⟨false, false, 0, false, some "u"⟩
        ⟨false, false, [], true, [1, 2, 3, 4, 5], false⟩
        ⟨true, none, []⟩ (.ok ()) =
      ⟨⟨false, false, 0, false, some "u"⟩,
        ⟨false, false, [], true, [1, 2, 3, 4, 5], false⟩, [],
        .error (.partialExceedsExpected 5 4)⟩ := by
  exact download_oversized_partial_spec (fun _ => "h") ⟨"m", "aa", 4⟩
    ⟨false, false, 0, false, some "u"⟩
    ⟨false, false, [], true, [1, 2, 3, 4, 5], false⟩
    ⟨true, none, []⟩ (.ok ()) "u" rfl rfl rfl (by decide)

/-- **C6.** After a hash-mismatch verification failure (full 3 bytes on
disk against declared size 3, digest `"aa"`, actual hash `"bb"`), the
partial file is retained — and the very next `download_model` call for
the same id issues a ranged request resuming from byte 3 (the partial
length), not a fresh transfer from byte zero, then fails verification
again.  The code has no restart-from-zero path after a verification
failure, contradicting the claim. -/
theorem download_resumes_after_verify_failure :
    (downloadModel (fun c => if c = [1, 2, 3] then "aa" else "bb")
        (some ⟨"m", "aa", 3⟩) ⟨false, false, 0, false, some "u"⟩
        ⟨false, false, [], false, [], false⟩
        ⟨true, some 3, [some [9, 9, 9]]⟩ (.ok ())).result =
      .error (.verifyFailed (.hashMismatch "m" "aa" "bb")) ∧
    (downloadModel (fun c => if c = [1, 2, 3] then "aa" else "bb")
        (some ⟨"m", "aa", 3⟩) ⟨false, false, 0, false, some "u"⟩
        ⟨false, false, [], false, [], false⟩
        ⟨true, some 3, [some [9, 9, 9]]⟩ (.ok ())).disk.partialExists = true ∧
    (downloadModel (fun c => if c = [1, 2, 3] then "aa" else "bb")
        (some ⟨"m", "aa", 3⟩) ⟨false, false, 0, false, some "u"⟩
        ⟨false, false, [], false, [], false⟩
        ⟨true, some 3, [some [9, 9, 9]]⟩ (.ok ())).disk.partialContent =
      [9, 9, 9] ∧
    (downloadModel (fun c => if c = [1, 2, 3] then "aa" else "bb")
        (some ⟨"m", "aa", 3⟩)
        (downloadModel (fun c => if c = [1, 2, 3] then "aa" else "bb")
          (some ⟨"m", "aa", 3⟩) ⟨false, false, 0, false, some "u"⟩
          ⟨false, false, [], false, [], false⟩
          ⟨true, some 3, [some [9, 9, 9]]⟩ (.ok ())).info
        (downloadModel (fun c => if c = [1, 2, 3] then "aa" else "bb")
          (some ⟨"m", "aa", 3⟩) ⟨false, false, 0, false, some "u"⟩
          ⟨false, false, [], false, [], false⟩
          ⟨true, some 3, [some [9, 9, 9]]⟩ (.ok ())).disk
        ⟨true, some 0, []⟩ (.ok ())).requests = [some 3] := by
  exact ⟨rfl, rfl, rfl, rfl⟩

/-- **C7.** If the final artifact already exists (for a model with a
download URL and a manifest entry), `download_model` short-circuits to
success: no HTTP request is issued, any stale partial file is removed
first, and the installed artifact — its presence, its kind, and its
content (hence its hash) — is left unchanged. -/
theorem download_idempotent_when_installed (hash : List Nat → String)
    (digest : ModelDigest) (info : ModelInfoState) (disk : DiskState)
    (resp : HttpResponse) (ext : Except ArchiveError Unit) (u : String)
    (hurl : info.url = some u) (hfinal : disk.finalExists = true) :
    (downloadModel hash (some digest) info disk resp ext).result = .ok () ∧
    (downloadModel hash (some digest) info disk resp ext).requests = [] ∧
    (downloadModel hash (some digest) info disk resp ext).disk.finalExists =
      true ∧
    (downloadModel hash (some digest) info disk resp ext).disk.finalIsDir =
      disk.finalIsDir ∧
    (downloadModel hash (some digest) info disk resp ext).disk.finalContent =
      disk.finalContent ∧
    (downloadModel hash (some digest) info disk resp ext).disk.partialExists =
      false := by
  cases hd : info.isDirectory <;>
    simp [downloadModel, updateDownloadStatus, hurl, hfinal, hd]

/-- Witness for C7: an installed file-based model with a stale 2-byte
partial; the call succeeds with no request, the partial is gone, and
the artifact content `[3, 4]` is untouched. -/
theorem download_idempotent_when_installed_witness :
    (downloadModel (fun _ => "h") (some ⟨"m", "aa", 2⟩)
        ⟨true, false, 0, false, some "u"⟩
        ⟨true, false, [3, 4], true, [1, 2], false⟩
        ⟨true, none, []⟩ (.ok ())).result = .ok () ∧
    (downloadModel (fun _ => "h") (some ⟨"m", "aa", 2⟩)
        ⟨true, false, 0, false, some "u"⟩
        ⟨true, false, [3, 4], true, [1, 2], false⟩
        ⟨true, none, []⟩ (.ok ())).requests = [] ∧
    (downloadModel (fun _ => "h") (some ⟨"m", "aa", 2⟩)
        ⟨true, false, 0, false, some "u"⟩
        ⟨true, false, [3, 4], true, [1, 2], false⟩
        ⟨true, none, []⟩ (.ok ())).disk.finalContent = [3, 4] ∧
    (downloadModel (fun _ => "h") (some ⟨"m", "aa", 2⟩)
        ⟨true, false, 0, false, some "u"⟩
        ⟨true, false, [3, 4], true, [1, 2], false⟩
        ⟨true, none, []⟩ (.ok ())).disk.partialExists = false := by
  have h := download_idempotent_when_installed (fun _ => "h") ⟨"m", "aa", 2⟩
    ⟨true, false, 0, false, some "u"⟩
    ⟨true, false, [3, 4], true, [1, 2], false⟩
    ⟨true, none, []⟩ (.ok ()) "u" rfl rfl
  exact ⟨h.1, h.2.1, h.2.2.2.2.1, h.2.2.2.2.2⟩

/-- **C8.** Two `download_model` paths flip `is_downloading` from true
back to false *without* re-reading the partial file's on-disk size: the
HTTP-status-failure path (here with a stale in-memory `partial_size` of
99 against 5 bytes on disk) and the mid-stream chunk-error path (stale
99 against 4 bytes on disk after the successful first chunk).  The
verification-failure, extraction-failure, completion and cancellation
paths do refresh it, so the claimed invariant fails on these two
paths. -/
theorem download_stale_partial_size_on_failure :
    ((downloadModel (fun _ => "h") (some ⟨"m", "aa", 10⟩)
        ⟨false, false, 99, false, some "u"⟩
        ⟨false, false, [], true, [1, 2, 3, 4, 5], false⟩
        ⟨false, none, []⟩ (.ok ())).result = .error .httpStatusFailure ∧
      (downloadModel (fun _ => "h") (some ⟨"m", "aa", 10⟩)
        ⟨false, false, 99, false, some "u"⟩
        ⟨false, false, [], true, [1, 2, 3, 4, 5], false⟩
        ⟨false, none, []⟩ (.ok ())).info.isDownloading = false ∧
      (downloadModel (fun _ => "h") (some ⟨"m", "aa", 10⟩)
        ⟨false, false, 99, false, some "u"⟩
        ⟨false, false, [], true, [1, 2, 3, 4, 5], false⟩
        ⟨false, none, []⟩ (.ok ())).info.partialSize = 99 ∧
      (downloadModel (fun _ => "h") (some ⟨"m", "aa", 10⟩)
        ⟨false, false, 99, false, some "u"⟩
        ⟨false, false, [], true, [1, 2, 3, 4, 5], false⟩
        ⟨false, none, []⟩ (.ok ())).disk.partialContent.length = 5) ∧
    ((downloadModel (fun _ => "h") (some ⟨"m", "aa", 10⟩)
        ⟨false, false, 99, false, some "u"⟩
        ⟨false, false, [], true, [1, 2, 3], false⟩
        ⟨true, some 10, [some [9], none]⟩ (.ok ())).result =
          .error .chunkError ∧
      (downloadModel (fun _ => "h") (some ⟨"m", "aa", 10⟩)
        ⟨false, false, 99, false, some "u"⟩
        ⟨false, false, [], true, [1, 2, 3], false⟩
        ⟨true, some 10, [some [9], none]⟩ (.ok ())).info.isDownloading =
          false ∧
      (downloadModel (fun _ => "h") (some ⟨"m", "aa", 10⟩)
        ⟨false, false, 99, false, some "u"⟩
        ⟨false, false, [], true, [1, 2, 3], false⟩
        ⟨true, some 10, [some [9], none]⟩ (.ok ())).info.partialSize = 99 ∧
      (downloadModel (fun _ => "h") (some ⟨"m", "aa", 10⟩)
        ⟨false, false, 99, false, some "u"⟩
        ⟨false, false, [], true, [1, 2, 3], false⟩
        ⟨true, some 10, [some [9], none]⟩ (.ok ())).disk.partialContent.length
          = 4) := by
  exact ⟨⟨rfl, rfl, rfl, rfl⟩, ⟨rfl, rfl, rfl, rfl⟩⟩

/-- **C9 (counterexample).** The claim requires `is_downloading` to be
false upon return from `cancel_download`, but the final
`update_download_status` call sets it back to whether the partial file
exists: cancelling a model with a 3-byte partial on disk leaves the
flag true. -/
theorem cancel_download_flag_counterexample :
    ((cancelDownload ⟨false, true, 3, false, some "u"⟩
        ⟨false, false, [], true, [1, 2, 3], false⟩).1).isDownloading =
      true := by
  rfl

/-- **C9 (amended).** For every known model id, `cancel_download`
returns success; the partial file is retained (neither truncated nor
deleted); upon return `partial_size` equals the partial file's on-disk
length (zero when no partial exists) and `is_downloading` equals
whether a partial file exists on disk — in particular it is false
exactly when no partial file remains. -/
theorem cancel_download_spec (info : ModelInfoState) (disk : DiskState) :
    (cancelDownload info disk).2.2 = .ok () ∧
    (cancelDownload info disk).2.1.partialExists = disk.partialExists ∧
    (cancelDownload info disk).2.1.partialContent = disk.partialContent ∧
    (cancelDownload info disk).1.isDownloading = disk.partialExists ∧
    (cancelDownload info disk).1.partialSize =
      (if disk.partialExists then disk.partialContent.length else 0) := by
  cases hd : info.isDirectory <;>
    simp [cancelDownload, updateDownloadStatus, hd]

/-- **C10.** `get_model_path` returns a path exactly when the model is
known, its status shows downloaded and not downloading, the final
artifact exists on disk (a directory for directory-based models), and
no partial file exists; in every other case it returns an error. -/
theorem get_model_path_spec (modelsDir : List String) (filename : String)
    (info? : Option ModelInfoState) (disk : DiskState) :
    (∃ p, getModelPath modelsDir filename info? disk = .ok p) ↔
      (∃ info, info? = some info ∧ info.isDownloaded = true ∧
        info.isDownloading = false ∧ disk.finalExists = true ∧
        (info.isDirectory = true → disk.finalIsDir = true) ∧
        disk.partialExists = false) := by
  cases info? with
  | none => simp [getModelPath]
  | some info =>
    cases hdl : info.isDownloaded <;> cases hdg : info.isDownloading <;>
      cases hdir : info.isDirectory <;> cases hfe : disk.finalExists <;>
      cases hfd : disk.finalIsDir <;> cases hpe : disk.partialExists <;>
      simp [getModelPath, hdl, hdg, hdir, hfe, hfd, hpe]

/-- Witness for C10: an installed, idle file-based model with no
partial yields its path; the same state marked downloading yields an
error. -/
theorem get_model_path_spec_witness :
    (∃ p, getModelPath ["models"] "f.bin"
      (some ⟨true, false, 0, false, some "u"⟩)
      ⟨true, false, [3], false, [], false⟩ = .ok p) ∧
    ¬ (∃ p, getModelPath ["models"] "f.bin"
      (some ⟨true, true, 0, false, some "u"⟩)
      ⟨true, false, [3], false, [], false⟩ = .ok p) := by
  constructor
  · exact (get_model_path_spec ["models"] "f.bin"
      (some ⟨true, false, 0, false, some "u"⟩)
      ⟨true, false, [3], false, [], false⟩).mpr
      ⟨⟨true, false, 0, false, some "u"⟩, rfl, rfl, rfl, rfl,
        fun h => by simp at h, rfl⟩
  · intro h
    have := (get_model_path_spec ["models"] "f.bin"
      (some ⟨true, true, 0, false, some "u"⟩)
      ⟨true, false, [3], false, [], false⟩).mp h
    rcases this with ⟨info, hinfo, _, hflag, _⟩
    cases hinfo
    simp at hflag

end HardenedHandy
